import Mathlib

/-!
Shallow embedding of the event-aggregation program in `agent.py`.

Modelling conventions:
* Python `datetime.date` values are modelled by `PyDate` (year/month/day as
  integers); the constructor validity check of CPython (year 1..9999, month
  1..12, day 1..days-in-month with Gregorian leap years) is `mkDate`, which
  returns `Except PyError PyDate` — `.error` models a raised `ValueError`
  (the message text is abstracted to the single string "ValueError").
* Python functions that may raise are embedded with result type
  `Except PyError _`; a `.error` value models an escaping exception.
* Strings are Lean `String`s; the two `re.search` patterns of
  `parse_spanish_date_str` and the anchored `re.match` pattern of
  `parse_events_from_tempo_club` are implemented character by character.
  At every decision point of those patterns the character classes involved
  are pairwise disjoint, so greedy maximal-munch scanning coincides with
  the backtracking semantics of the Python `re` engine.  Digit and word
  character classes are modelled over ASCII plus the Spanish accented
  letters (the inputs the program handles); `str.lower` is modelled on the
  same alphabet.
* The BeautifulSoup HTML extraction is out of the date/parsing core: a
  fetched document is modelled as a `Content` value carrying the extracted
  visible text lines and the hrefs of the "+ info" anchors in document
  order, exactly the two projections `parse_events_from_tempo_club` takes
  from the soup.
* The implicit `datetime.now(tz("Europe/Madrid")).date()` read at line 209
  of `agent.py` is modelled as an explicit `today : PyDate` argument
  threaded to the parser and router, standing for the value the clock read
  returns at execution time.
* `print` reporting is modelled away (it does not affect returned data).
-/

deriving instance DecidableEq for Except

namespace Agent

/-- A raised Python exception, with its message abstracted. -/
structure PyError where
  msg : String
deriving DecidableEq, Repr

/-- A Python `datetime.date` value (fields as constructed). -/
structure PyDate where
  year : Int
  month : Int
  day : Int
deriving DecidableEq, Repr

/-- Gregorian leap-year test, as in Python `calendar`/`datetime`. -/
def isLeap (y : Int) : Bool :=
  y % 4 == 0 && (y % 100 != 0 || y % 400 == 0)

/-- Number of days in a month, as enforced by `datetime.date`. -/
def daysInMonth (y m : Int) : Int :=
  if m = 2 then (if isLeap y then 29 else 28)
  else if m = 4 ∨ m = 6 ∨ m = 9 ∨ m = 11 then 30
  else 31

/-- Validity predicate of the CPython `date(y, m, d)` constructor. -/
def isValidDate (y m d : Int) : Bool :=
  1 ≤ y && y ≤ 9999 && 1 ≤ m && m ≤ 12 && 1 ≤ d && d ≤ daysInMonth y m

/-- The `date(y, m, d)` constructor: a date on valid input, a raised
`ValueError` otherwise. -/
def mkDate (y m d : Int) : Except PyError PyDate :=
  if isValidDate y m d then .ok ⟨y, m, d⟩ else .error ⟨"ValueError"⟩

/-- The character class of Python `\s` (ASCII whitespace). -/
def pyIsSpace (c : Char) : Bool :=
  c = ' ' || c = '\t' || c = '\n' || c = '\r' || c = '\x0b' || c = '\x0c'

/-- The regex character class `[a-záéíóú]` used by all three patterns. -/
def spLetter (c : Char) : Bool :=
  ('a' ≤ c && c ≤ 'z') || c = 'á' || c = 'é' || c = 'í' || c = 'ó' || c = 'ú'

/-- Word characters for `\b` boundaries (ASCII word characters plus the
accented Spanish letters the program can meet). -/
def pyIsWord (c : Char) : Bool :=
  c.isDigit || ('a' ≤ c && c ≤ 'z') || ('A' ≤ c && c ≤ 'Z') || c = '_' ||
    c = 'á' || c = 'é' || c = 'í' || c = 'ó' || c = 'ú' ||
    c = 'Á' || c = 'É' || c = 'Í' || c = 'Ó' || c = 'Ú' ||
    c = 'ñ' || c = 'Ñ' || c = 'ü' || c = 'Ü'

/-- `str.lower` on the modelled alphabet. -/
def pyLowerChar (c : Char) : Char :=
  if 'A' ≤ c && c ≤ 'Z' then Char.ofNat (c.toNat + 32)
  else if c = 'Á' then 'á' else if c = 'É' then 'é' else if c = 'Í' then 'í'
  else if c = 'Ó' then 'ó' else if c = 'Ú' then 'ú' else if c = 'Ñ' then 'ñ'
  else if c = 'Ü' then 'ü' else c

/-- `str.lower` over a whole string. -/
def pyLowerStr (s : String) : String := ⟨s.toList.map pyLowerChar⟩

/-- `str.strip`: remove leading and trailing whitespace. -/
def pyStrip (s : String) : String :=
  ⟨((s.toList.dropWhile pyIsSpace).reverse.dropWhile pyIsSpace).reverse⟩

/-- Decimal value of a digit group, as Python `int` on it. -/
def digitsToNat (ds : List Char) : Nat :=
  ds.foldl (fun n c => 10 * n + (c.toNat - '0'.toNat)) 0

/-- The accent-normalisation chain
`:replace("á","a")... .replace("ú","u")` of `agent.py`. -/
def deaccent (s : String) : String :=
  ⟨s.toList.map fun c =>
    if c = 'á' then 'a' else if c = 'é' then 'e' else if c = 'í' then 'i'
    else if c = 'ó' then 'o' else if c = 'ú' then 'u' else c⟩

/-- The `SPANISH_MONTHS` table of `agent.py`, in source order. -/
def SPANISH_MONTHS : List (String × Int) :=
  [("enero", 1), ("febrero", 2), ("marzo", 3), ("abril", 4), ("mayo", 5),
   ("junio", 6), ("julio", 7), ("agosto", 8), ("septiembre", 9),
   ("setiembre", 9), ("octubre", 10), ("noviembre", 11), ("diciembre", 12),
   ("ene", 1), ("feb", 2), ("mar", 3), ("abr", 4), ("may", 5), ("jun", 6),
   ("jul", 7), ("ago", 8), ("sep", 9), ("oct", 10), ("nov", 11), ("dic", 12)]

/-- Anchored attempt of pattern
`\b(\d{1,2})\s+de\s+([a-záéíóú]+)\s+de\s+(\d{4})\b` at the head of `cs`
(the caller guarantees the word boundary before the head).  Returns
`(day, monthToken, year)` on success. -/
def matchP1At (cs : List Char) : Option (Nat × String × Nat) :=
  let (ds, r1) := cs.span Char.isDigit
  if ds.length = 0 || 2 < ds.length then none else
  let (sp1, r2) := r1.span pyIsSpace
  if sp1.length = 0 then none else
  match r2 with
  | 'd' :: 'e' :: r3 =>
    let (sp2, r4) := r3.span pyIsSpace
    if sp2.length = 0 then none else
    let (ls, r5) := r4.span spLetter
    if ls.length = 0 then none else
    let (sp3, r6) := r5.span pyIsSpace
    if sp3.length = 0 then none else
    match r6 with
    | 'd' :: 'e' :: r7 =>
      let (sp4, r8) := r7.span pyIsSpace
      if sp4.length = 0 then none else
      let (ys, r9) := r8.span Char.isDigit
      if ys.length = 4 && (r9.headD ' ' |> pyIsWord |> not) then
        some (digitsToNat ds, ⟨ls⟩, digitsToNat ys)
      else none
    | _ => none
  | _ => none

/-- Anchored attempt of pattern `\b(\d{1,2})\s+([a-záéíóú]{3,})\b` at the
head of `cs`.  Returns `(day, monthToken)` on success. -/
def matchP2At (cs : List Char) : Option (Nat × String) :=
  let (ds, r1) := cs.span Char.isDigit
  if ds.length = 0 || 2 < ds.length then none else
  let (sp1, r2) := r1.span pyIsSpace
  if sp1.length = 0 then none else
  let (ls, r3) := r2.span spLetter
  if ls.length < 3 then none else
  if (r3.headD ' ' |> pyIsWord |> not) then some (digitsToNat ds, ⟨ls⟩)
  else none

/-- Left-to-right scan of `re.search` for pattern 1; `prevW` records
whether the previous character was a word character (for `\b`). -/
def searchP1Go (prevW : Bool) : List Char → Option (Nat × String × Nat)
  | [] => none
  | c :: rest =>
    if !prevW && c.isDigit then
      match matchP1At (c :: rest) with
      | some r => some r
      | none => searchP1Go (pyIsWord c) rest
    else searchP1Go (pyIsWord c) rest

/-- `re.search` of the full-date pattern over a string. -/
def searchP1 (cs : List Char) : Option (Nat × String × Nat) :=
  searchP1Go false cs

/-- Left-to-right scan of `re.search` for pattern 2. -/
def searchP2Go (prevW : Bool) : List Char → Option (Nat × String)
  | [] => none
  | c :: rest =>
    if !prevW && c.isDigit then
      match matchP2At (c :: rest) with
      | some r => some r
      | none => searchP2Go (pyIsWord c) rest
    else searchP2Go (pyIsWord c) rest

/-- `re.search` of the day-month pattern over a string. -/
def searchP2 (cs : List Char) : Option (Nat × String) :=
  searchP2Go false cs

/-- Outcome of the second (`<day> <monthName>`) branch of
`parse_spanish_date_str`: a year-1900 placeholder date when the month
token is recognised, `None` otherwise. -/
def spanishP2 (tc : List Char) : Except PyError (Option PyDate) :=
  match searchP2 tc with
  | some (d, monTok) =>
    match SPANISH_MONTHS.lookup (deaccent monTok) with
    | some mon => match mkDate 1900 mon (Int.ofNat d) with
                  | .ok dt => .ok (some dt)
                  | .error e => .error e
    | none => .ok none
  | none => .ok none

/-- `parse_spanish_date_str` of `agent.py` (lines 116-147): strip and
lower-case, try the `<day> de <month> de <year>` pattern (returning a
fully resolved date when the month token is known), then the
`<day> <month>` pattern (returning a year-1900 placeholder date), else
`None`.  A `ValueError` raised by the `date` constructor is `.error`. -/
def parse_spanish_date_str (s : String) : Except PyError (Option PyDate) :=
  if s = "" then .ok none
  else
    let tc := (pyLowerStr (pyStrip s)).toList
    match searchP1 tc with
    | some (d, monTok, y) =>
      match SPANISH_MONTHS.lookup (deaccent monTok) with
      | some mon => match mkDate (Int.ofNat y) mon (Int.ofNat d) with
                    | .ok dt => .ok (some dt)
                    | .error e => .error e
      | none => spanishP2 tc
    | none => spanishP2 tc

/-- `attach_year` of `agent.py` (lines 150-164): a date with a non-1900
year is returned unchanged; a year-1900 placeholder gets the reference
year, bumped by one on the December-to-January rollover. -/
def attach_year (d today : PyDate) : Except PyError PyDate :=
  if d.year ≠ 1900 then .ok d
  else
    match mkDate today.year d.month d.day with
    | .error e => .error e
    | .ok candidate =>
      if today.month = 12 ∧ candidate.month = 1 then
        mkDate (today.year + 1) d.month d.day
      else .ok candidate

/-- A configured listing origin (`VenueSource` dataclass of `agent.py`). -/
structure VenueSource where
  name : String
  city : String
  url : String
  type : String
  notes : String
deriving DecidableEq, Repr

/-- A normalised event (`Event` dataclass of `agent.py`). -/
structure Event where
  title : String
  venue : String
  event_date : PyDate
  event_time : Option String
  url : String
  source_url : String
  raw_genre_text : String
deriving DecidableEq, Repr

/-- Final segment `([0-2]?\d:\d{2})$` of the header pattern: the whole
remaining line must be a 4- or 5-character time.  Returns the time text. -/
def matchTimeEnd (cs : List Char) : Option String :=
  match cs with
  | [h1, h2, c, m1, m2] =>
    if ('0' ≤ h1 && h1 ≤ '2') && h2.isDigit && c = ':' && m1.isDigit && m2.isDigit
    then some ⟨[h1, h2, c, m1, m2]⟩ else none
  | [h1, c, m1, m2] =>
    if h1.isDigit && c = ':' && m1.isDigit && m2.isDigit
    then some ⟨[h1, c, m1, m2]⟩ else none
  | _ => none

/-- The anchored `re.match` of
`^(\d{1,2})\s+([a-záéíóú]+)\s*\|\s*([0-2]?\d:\d{2})$` used on each
(lower-cased) text line by `parse_events_from_tempo_club`.  Returns
`(day, monthToken, time)` on a match. -/
def matchHeader (ln : String) : Option (Nat × String × String) :=
  let cs := ln.toList
  let (ds, r1) := cs.span Char.isDigit
  if ds.length = 0 || 2 < ds.length then none else
  let (sp1, r2) := r1.span pyIsSpace
  if sp1.length = 0 then none else
  let (ls, r3) := r2.span spLetter
  if ls.length = 0 then none else
  let (_, r4) := r3.span pyIsSpace
  match r4 with
  | '|' :: r5 =>
    let (_, r6) := r5.span pyIsSpace
    match matchTimeEnd r6 with
    | some t => some (digitsToNat ds, ⟨ls⟩, t)
    | none => none
  | _ => none

/-- Loop body of `parse_events_from_tempo_club` (lines 196-231 of
`agent.py`) over the non-empty stripped text lines: on a header match with
a following title line, parse the day-month string (a raised `ValueError`
escapes), resolve the year against `today` (the wall-clock date read at
line 209), emit the event consuming the next unused info link, and advance
two lines; otherwise advance one line. -/
def tempoGo (today : PyDate) (src : VenueSource) :
    List String → List String → Except PyError (List Event)
  | [], _ => .ok []
  | [_], _ => .ok []
  | ln :: title :: rest, links =>
    match matchHeader (pyLowerStr ln) with
    | none => tempoGo today src (title :: rest) links
    | some (day, mon, hhmm) =>
      match parse_spanish_date_str (toString day ++ " " ++ mon) with
      | .error e => .error e
      | .ok none => tempoGo today src rest links
      | .ok (some d0) =>
        match attach_year d0 today with
        | .error e => .error e
        | .ok d =>
          match tempoGo today src rest links.tail with
          | .error e => .error e
          | .ok evs =>
            .ok (⟨pyStrip title, src.name, d, some hhmm, links.headD src.url,
                  src.url, pyStrip title⟩ :: evs)

/-- `parse_events_from_tempo_club` of `agent.py` (lines 177-233), over the
extracted visible text lines and the "+ info" anchor hrefs in document
order.  `today` stands for the `datetime.now` Madrid date read at line
209. -/
def parse_events_from_tempo_club (lines info_links : List String)
    (src : VenueSource) (today : PyDate) : Except PyError (List Event) :=
  tempoGo today src ((lines.map pyStrip).filter (fun l => l ≠ "")) info_links

/-- A fetched document, reduced to the two projections the reference
parser takes from the HTML soup: the visible text lines and the hrefs of
the "+ info" anchors, both in document order. -/
structure Content where
  lines : List String
  info_links : List String
deriving DecidableEq, Repr

/-- Python `in` substring test on strings. -/
def listIsSub (ns : List Char) : List Char → Bool
  | [] => ns.isEmpty
  | h :: t => ns.isPrefixOf (h :: t) || listIsSub ns t

/-- `needle in hay` for strings. -/
def isSubstr (needle hay : String) : Bool :=
  listIsSub needle.toList hay.toList

/-- The router `parse_events` of `agent.py` (lines 250-267): substring
dispatch on the lower-cased source url over the four known host
fragments; the three stub integrations and the fallback return `[]`. -/
def parse_events (c : Content) (src : VenueSource) (today : PyDate) :
    Except PyError (List Event) :=
  if isSubstr "teatrodelbarrio.com" (pyLowerStr src.url) then .ok []
  else if isSubstr "tempoclub.es" (pyLowerStr src.url) then
    parse_events_from_tempo_club c.lines c.info_links src today
  else if isSubstr "cafeberlinentradas.com" (pyLowerStr src.url) then .ok []
  else if isSubstr "salariviera.com" (pyLowerStr src.url) then .ok []
  else .ok []

/-- `collect_events` of `agent.py` (lines 271-290).  The network fetch
plus soup extraction is the injected collaborator `fetch`; a `.error`
models a raised fetch or parse exception, caught per source.  Sources
whose `type` is not `"html"` are skipped with a warning. -/
def collect_events (fetch : String → Except PyError Content)
    (today : PyDate) : List VenueSource → List Event
  | [] => []
  | v :: rest =>
    if v.type ≠ "html" then collect_events fetch today rest
    else
      match fetch v.url with
      | .error _ => collect_events fetch today rest
      | .ok c =>
        match parse_events c v today with
        | .error _ => collect_events fetch today rest
        | .ok evs => evs ++ collect_events fetch today rest

/-- Python `date.weekday()` on a proleptic-Gregorian ordinal (as returned
by `date.toordinal`; ordinal 1 is a Monday, so Monday = 0 .. Sunday = 6). -/
def pyWeekday (o : Int) : Int := (o + 6) % 7

/-- The ordinal of `date.max` = 9999-12-31 (a Friday). -/
def pyDateMaxOrdinal : Int := 3652059

/-- Python `date + timedelta(days = n)` on ordinals: the sum when it
stays between the ordinals of `date.min` (1) and `date.max`, a raised
`OverflowError` otherwise (CPython checks `0 < ord <= _MAXORDINAL`). -/
def pyDateAdd (o n : Int) : Except PyError Int :=
  if 1 ≤ o + n ∧ o + n ≤ pyDateMaxOrdinal then .ok (o + n)
  else .error ⟨"OverflowError"⟩

/-- The `days_to_friday` offset computed at lines 78-83 of `agent.py`. -/
def madridDaysToFriday (o : Int) : Int :=
  if 4 - pyWeekday o < 0 then 4 - pyWeekday o + 7 else 4 - pyWeekday o

/-- `madrid_weekend_window` of `agent.py` (lines 72-87), on date
ordinals: each `timedelta` addition is a range-checked ordinal addition
that can raise `OverflowError` past `date.max`. -/
def madrid_weekend_window (o : Int) : Except PyError (Int × Int) :=
  match pyDateAdd o (madridDaysToFriday o) with
  | .error e => .error e
  | .ok friday =>
    match pyDateAdd friday 1 with
    | .error e => .error e
    | .ok saturday => .ok (friday, saturday)

/-- Python `e.event_time or "99:99"`: `None` and the empty string are
falsy, any other string is itself. -/
def timeKey : Option String → String
  | none => "99:99"
  | some s => if s = "" then "99:99" else s

/-- The sort-key codomain: dates compare chronologically (lexicographic
on year, month, day — the Python `date` total order on valid dates), then
lexicographically on time text, venue and title, as Python tuple
comparison does. -/
abbrev SortKey := (Int ×ₗ (Int ×ₗ Int)) ×ₗ (String ×ₗ (String ×ₗ String))

/-- The key `lambda e: (e.event_date, e.event_time or "99:99", e.venue,
e.title)` of the sort at line 329 of `agent.py`. -/
def sortKey (e : Event) : SortKey :=
  toLex (toLex (e.event_date.year, toLex (e.event_date.month, e.event_date.day)),
         toLex (timeKey e.event_time, toLex (e.venue, e.title)))

/-- The order `list.sort(key=...)` sorts by. -/
def seqLE (a b : Event) : Prop := sortKey a ≤ sortKey b

instance : DecidableRel seqLE :=
  fun a b => inferInstanceAs (Decidable (sortKey a ≤ sortKey b))

instance : IsTotal Event seqLE := ⟨fun a b => le_total (sortKey a) (sortKey b)⟩

instance : IsTrans Event seqLE := ⟨fun _ _ _ h1 h2 => le_trans h1 h2⟩

/-- `dance_events.sort(key=...)` at line 329 of `agent.py`: Python
`list.sort` is a stable sort by the key; a stable sort by a total
preorder is a unique function of its input, here realised by insertion
sort (`List.insertionSort` inserts an element before the first
key-equivalent one, i.e. keeps earlier elements of equal key first). -/
def sequence (l : List Event) : List Event := List.insertionSort seqLE l

/-- The Tempo Club source entry, as routed by `parse_events`. -/
def demoSource : VenueSource :=
  ⟨"Tempo Club", "Madrid", "https://tempoclub.es/agenda", "html", ""⟩

/-- The per-header date resolution C7 describes: two-step parse plus year
resolution, absent when the day-month text does not resolve to a date. -/
def resolveHeaderDate (day : Nat) (mon : String) (today : PyDate) : Option PyDate :=
  match parse_spanish_date_str (toString day ++ " " ++ mon) with
  | .ok (some d0) =>
    match attach_year d0 today with
    | .ok d => some d
    | .error _ => none
  | _ => none

/-- A text line is safe when the day-month parse and the year resolution
raise no fault on it (an unmatched line, or a matched line whose date
merely fails to resolve, is safe). -/
def headerSafe (today : PyDate) (ln : String) : Bool :=
  match matchHeader (pyLowerStr ln) with
  | none => true
  | some (day, mon, _) =>
    match parse_spanish_date_str (toString day ++ " " ++ mon) with
    | .error _ => false
    | .ok none => true
    | .ok (some d0) =>
      match attach_year d0 today with
      | .error _ => false
      | .ok _ => true

/-- The scan C7 claims, written from the claim sentence: over the
non-empty trimmed lines in order, a line matching the header pattern that
is followed by a title line and whose date resolves emits exactly one
event — title and raw genre text the next line, the matched time, the
source name as venue, the next unused info link (else the source url) —
consuming two lines; any other line consumes one line; only an emission
advances the info-link cursor. -/
def tempoClubSpecScan (today : PyDate) (src : VenueSource) :
    List String → List String → List Event
  | [], _ => []
  | [_], _ => []
  | ln :: title :: rest, links =>
    match matchHeader (pyLowerStr ln) with
    | some (day, mon, hhmm) =>
      match resolveHeaderDate day mon today with
      | some d =>
        ⟨pyStrip title, src.name, d, some hhmm, links.headD src.url, src.url,
         pyStrip title⟩ :: tempoClubSpecScan today src rest links.tail
      | none => tempoClubSpecScan today src rest links
    | none => tempoClubSpecScan today src (title :: rest) links

/-- Helper: when neither search pattern matches the normalised text, the
parser returns `None` and raises nothing. -/
theorem parse_none_of_no_match (s : String)
    (h1 : searchP1 (pyLowerStr (pyStrip s)).toList = none)
    (h2 : searchP2 (pyLowerStr (pyStrip s)).toList = none) :
    parse_spanish_date_str s = .ok none := by
  have h1' : searchP1 (pyLowerStr (pyStrip s)).data = none := h1
  have h2' : searchP2 (pyLowerStr (pyStrip s)).data = none := h2
  unfold parse_spanish_date_str
  by_cases hs : s = ""
  · simp [hs]
  · simp [hs, spanishP2, h1, h2, h1', h2']

/-- Helper: pattern 1 failing and pattern 2 matching with a month token
outside the table also yields `None`. -/
theorem parse_none_of_unknown_month (s : String) (d : Nat) (mon : String)
    (h1 : searchP1 (pyLowerStr (pyStrip s)).toList = none)
    (h2 : searchP2 (pyLowerStr (pyStrip s)).toList = some (d, mon))
    (h3 : SPANISH_MONTHS.lookup (deaccent mon) = none) :
    parse_spanish_date_str s = .ok none := by
  have h1' : searchP1 (pyLowerStr (pyStrip s)).data = none := h1
  have h2' : searchP2 (pyLowerStr (pyStrip s)).data = some (d, mon) := h2
  unfold parse_spanish_date_str
  by_cases hs : s = ""
  · simp [hs]
  · simp [hs, spanishP2, h1, h2, h1', h2', h3]

/-- Helper: a failing `mkDate` has an invalid component triple. -/
theorem mkDate_error_invalid (y m d : Int) (e : PyError)
    (h : mkDate y m d = .error e) : isValidDate y m d = false := by
  unfold mkDate at h
  by_cases hv : isValidDate y m d = true
  · simp [hv] at h
  · simpa using hv

/-- Helper: the only faults `parse_spanish_date_str` can raise are
`ValueError`s from the `date` constructor on an invalid triple. -/
theorem parse_error_from_mkDate (s : String) (e : PyError)
    (h : parse_spanish_date_str s = .error e) :
    ∃ y m d, isValidDate y m d = false ∧ mkDate y m d = .error e := by
  have hp2 : ∀ tc, spanishP2 tc = .error e →
      ∃ y m d, isValidDate y m d = false ∧ mkDate y m d = .error e := by
    intro tc h2
    unfold spanishP2 at h2
    rcases hs2 : searchP2 tc with _ | ⟨d, mon⟩ <;> simp only [hs2] at h2
    · exact Except.noConfusion h2
    · rcases hlk : SPANISH_MONTHS.lookup (deaccent mon) with _ | mo <;>
        simp only [hlk] at h2
      · exact Except.noConfusion h2
      · rcases hmk : mkDate 1900 mo (Int.ofNat d) with e' | dt <;>
          simp only [hmk] at h2
        · cases h2
          exact ⟨1900, mo, Int.ofNat d, mkDate_error_invalid _ _ _ _ hmk, hmk⟩
        · exact Except.noConfusion h2
  unfold parse_spanish_date_str at h
  by_cases hs : s = ""
  · simp [hs] at h
  · rw [if_neg hs] at h
    rcases hs1 : searchP1 (pyLowerStr (pyStrip s)).toList with _ | ⟨d, mon, y⟩ <;>
      simp only [hs1] at h
    · exact hp2 _ h
    · rcases hlk : SPANISH_MONTHS.lookup (deaccent mon) with _ | mo <;>
        simp only [hlk] at h
      · exact hp2 _ h
      · rcases hmk : mkDate (Int.ofNat y) mo (Int.ofNat d) with e' | dt <;>
          simp only [hmk] at h
        · cases h
          exact ⟨Int.ofNat y, mo, Int.ofNat d, mkDate_error_invalid _ _ _ _ hmk, hmk⟩
        · exact Except.noConfusion h

/-- C2 counterexample: text matching the full-date shape whose day and
month do not form a valid calendar date makes `parse_spanish_date_str`
raise a `ValueError`, contradicting "it never raises a fault". -/
theorem parse_spanish_invalid_day_raises :
    parse_spanish_date_str "31 de febrero de 2026" = .error ⟨"ValueError"⟩ := by
  decide

/-- C2 amended: for every input, `parse_spanish_date_str` returns a
resolved date, a placeholder partial date, or `None`, except that when a
matched pattern's recognised day/month(/year) components do not form a
valid calendar date the `date` constructor raises a `ValueError` that
escapes (e.g. on "31 de febrero de 2026"); in particular text in which
neither pattern matches always yields `None` without a fault. -/
theorem parse_spanish_total_except_invalid_dates :
    (∀ (s : String) (e : PyError), parse_spanish_date_str s = .error e →
      ∃ y m d, isValidDate y m d = false ∧ mkDate y m d = .error e) ∧
    (∀ s : String, searchP1 (pyLowerStr (pyStrip s)).toList = none →
      searchP2 (pyLowerStr (pyStrip s)).toList = none →
      parse_spanish_date_str s = .ok none) :=
  ⟨parse_error_from_mkDate, parse_none_of_no_match⟩

/-- C2 witness: the theorem applied at "31 febrero" (raising branch) and
at "sin fecha aqui" (no-match branch). -/
theorem parse_spanish_total_except_invalid_dates_witness :
    (∃ y m d, isValidDate y m d = false ∧ mkDate y m d = .error ⟨"ValueError"⟩) ∧
    parse_spanish_date_str "sin fecha aqui" = .ok none :=
  ⟨parse_spanish_total_except_invalid_dates.1 "31 febrero" ⟨"ValueError"⟩ (by decide),
   parse_spanish_total_except_invalid_dates.2 "sin fecha aqui" (by decide) (by decide)⟩

/-- C4 counterexample: ordinal 3652059 is `date.max` = 9999-12-31, a
valid date and itself a Friday, yet the window computation raises
`OverflowError` (from `friday + timedelta(days=1)`) instead of returning
a pair — refuting "total over all valid dates with no error
conditions". -/
theorem madrid_weekend_window_overflow_counterexample :
    pyWeekday 3652059 = 4 ∧ (3652059 : Int) ≤ pyDateMaxOrdinal ∧
    madrid_weekend_window 3652059 = .error ⟨"OverflowError"⟩ := by
  refine ⟨by decide, by decide, by decide⟩

/-- C4 amended: for every valid date whose ordinal is at most 3652052
(9999-12-24, the last Friday with a representable Saturday), the window
is a pair (f, s) with f a Friday, s the day after, f at or after the
input on Monday-Friday and strictly after it on Saturday-Sunday; for the
remaining valid dates 9999-12-25 .. 9999-12-31 the `timedelta` addition
overflows past `date.max` and the function raises `OverflowError`. -/
theorem madrid_weekend_window_spec :
    (∀ o : Int, 1 ≤ o → o ≤ 3652052 →
      ∃ f s, madrid_weekend_window o = .ok (f, s) ∧
        pyWeekday f = 4 ∧ s = f + 1 ∧
        (pyWeekday o ≤ 4 → o ≤ f) ∧ (4 < pyWeekday o → o < f)) ∧
    (∀ o : Int, 3652053 ≤ o → o ≤ pyDateMaxOrdinal →
      madrid_weekend_window o = .error ⟨"OverflowError"⟩) := by
  constructor
  · intro o h1 h2
    have hb : 0 ≤ madridDaysToFriday o ∧ madridDaysToFriday o ≤ 6 := by
      unfold madridDaysToFriday pyWeekday
      split <;> omega
    have hadd1 : pyDateAdd o (madridDaysToFriday o) =
        .ok (o + madridDaysToFriday o) := by
      unfold pyDateAdd pyDateMaxOrdinal
      rw [if_pos (by omega)]
    have hadd2 : pyDateAdd (o + madridDaysToFriday o) 1 =
        .ok (o + madridDaysToFriday o + 1) := by
      unfold pyDateAdd pyDateMaxOrdinal
      rw [if_pos (by omega)]
    refine ⟨o + madridDaysToFriday o, o + madridDaysToFriday o + 1, ?_, ?_, rfl,
      ?_, ?_⟩
    · simp only [madrid_weekend_window, hadd1, hadd2]
    · unfold madridDaysToFriday pyWeekday
      split <;> omega
    · unfold madridDaysToFriday pyWeekday
      split <;> omega
    · unfold madridDaysToFriday pyWeekday
      split <;> omega
  · intro o h1 h2
    have h2' : o ≤ 3652059 := h2
    have hfri : o + madridDaysToFriday o = 3652059 := by
      unfold madridDaysToFriday pyWeekday
      split <;> omega
    have hadd1 : pyDateAdd o (madridDaysToFriday o) = .ok 3652059 := by
      unfold pyDateAdd
      rw [hfri, if_pos (by decide)]
    have hadd2 : pyDateAdd 3652059 1 = .error ⟨"OverflowError"⟩ := by decide
    simp only [madrid_weekend_window, hadd1, hadd2]

/-- C4 witness: ordinal 5 is a Friday (same-week case), ordinal 6 a
Saturday (next-week case), ordinal 3652059 the overflowing `date.max`. -/
theorem madrid_weekend_window_witness :
    (∃ f s, madrid_weekend_window 5 = .ok (f, s) ∧
      pyWeekday f = 4 ∧ s = f + 1 ∧
      (pyWeekday 5 ≤ 4 → (5 : Int) ≤ f) ∧ (4 < pyWeekday 5 → (5 : Int) < f)) ∧
    (∃ f s, madrid_weekend_window 6 = .ok (f, s) ∧
      pyWeekday f = 4 ∧ s = f + 1 ∧
      (pyWeekday 6 ≤ 4 → (6 : Int) ≤ f) ∧ (4 < pyWeekday 6 → (6 : Int) < f)) ∧
    madrid_weekend_window 3652059 = .error ⟨"OverflowError"⟩ :=
  ⟨madrid_weekend_window_spec.1 5 (by decide) (by decide),
   madrid_weekend_window_spec.1 6 (by decide) (by decide),
   madrid_weekend_window_spec.2 3652059 (by decide) (by decide)⟩

/-- C1: `collect_events` is total (one source's failure or unsupported
type never aborts the run) and returns exactly the concatenation of the
per-source event lists of the sources whose type is `"html"` and whose
fetch and parse both succeed, in source iteration order. -/
theorem collect_events_concat (fetch : String → Except PyError Content)
    (today : PyDate) (venues : List VenueSource) :
    collect_events fetch today venues =
      (venues.map (fun v =>
        if v.type = "html" then
          match fetch v.url with
          | .error _ => []
          | .ok c =>
            match parse_events c v today with
            | .error _ => []
            | .ok evs => evs
        else [])).flatten := by
  induction venues with
  | nil => rfl
  | cons v rest ih =>
    by_cases hv : v.type = "html"
    · rcases hf : fetch v.url with e | c
      · simp [collect_events, hv, hf, ih]
      · rcases hp : parse_events c v today with e | evs
        · simp [collect_events, hv, hf, hp, ih]
        · simp [collect_events, hv, hf, hp, ih]
    · simp [collect_events, hv, ih]

/-- C8: `parse_events` routes on a case-insensitive substring match of
the source url; a url containing none of the four known host fragments
gets the explicit fallback: an empty event list, no fault.  A url
matching `tempoclub.es` (case-insensitively) is routed to the Tempo Club
parser. -/
theorem parse_events_unmatched_fallback :
    (∀ (c : Content) (src : VenueSource) (today : PyDate),
      isSubstr "teatrodelbarrio.com" (pyLowerStr src.url) = false →
      isSubstr "tempoclub.es" (pyLowerStr src.url) = false →
      isSubstr "cafeberlinentradas.com" (pyLowerStr src.url) = false →
      isSubstr "salariviera.com" (pyLowerStr src.url) = false →
      parse_events c src today = .ok []) ∧
    (∀ (c : Content) (today : PyDate),
      parse_events c ⟨"Tempo", "Madrid", "HTTPS://TEMPOCLUB.ES/X", "html", ""⟩ today =
        parse_events_from_tempo_club c.lines c.info_links
          ⟨"Tempo", "Madrid", "HTTPS://TEMPOCLUB.ES/X", "html", ""⟩ today) := by
  constructor
  · intro c src today h1 h2 h3 h4
    unfold parse_events
    simp [h1, h2, h3, h4]
  · intro c today
    rfl

/-- C8 witness: the fallback applied to a source with an unknown url. -/
theorem parse_events_unmatched_fallback_witness :
    parse_events ⟨["29 enero | 21:00", "Soul"], ["u"]⟩
      ⟨"Otro", "Madrid", "https://example.com/agenda", "html", ""⟩ ⟨2025, 10, 12⟩ = .ok [] :=
  parse_events_unmatched_fallback.1 _ _ _ (by decide) (by decide) (by decide) (by decide)


/-- C5: the parser recognises, case-insensitively and accent-normalised,
the two shapes in order — full date with explicit year, then day-month as
a year-1900 placeholder partial date — with the month table holding the
full Spanish names, "setiembre" and a three-letter abbreviation for every
month; unmatched text or an unknown month token yields `None`. -/
theorem parse_spanish_two_shapes :
    parse_spanish_date_str "30 de enero de 2026" = .ok (some ⟨2026, 1, 30⟩) ∧
    parse_spanish_date_str "29 enero" = .ok (some ⟨1900, 1, 29⟩) ∧
    parse_spanish_date_str "30 DE ENERO DE 2026" = .ok (some ⟨2026, 1, 30⟩) ∧
    parse_spanish_date_str "1 de máyo de 2026" = .ok (some ⟨2026, 5, 1⟩) ∧
    parse_spanish_date_str "30 de enero de 2026 31 marzo" = .ok (some ⟨2026, 1, 30⟩) ∧
    parse_spanish_date_str "29 fantasma" = .ok none ∧
    parse_spanish_date_str "hola mundo" = .ok none ∧
    (([("enero", 1), ("febrero", 2), ("marzo", 3), ("abril", 4), ("mayo", 5),
       ("junio", 6), ("julio", 7), ("agosto", 8), ("septiembre", 9),
       ("octubre", 10), ("noviembre", 11), ("diciembre", 12), ("setiembre", 9),
       ("ene", 1), ("feb", 2), ("mar", 3), ("abr", 4), ("may", 5), ("jun", 6),
       ("jul", 7), ("ago", 8), ("sep", 9), ("oct", 10), ("nov", 11),
       ("dic", 12)] : List (String × Int)).all
      (fun p => SPANISH_MONTHS.lookup p.1 == some p.2)) = true ∧
    (∀ s : String, searchP1 (pyLowerStr (pyStrip s)).toList = none →
      searchP2 (pyLowerStr (pyStrip s)).toList = none →
      parse_spanish_date_str s = .ok none) ∧
    (∀ (s : String) (d : Nat) (mon : String),
      searchP1 (pyLowerStr (pyStrip s)).toList = none →
      searchP2 (pyLowerStr (pyStrip s)).toList = some (d, mon) →
      SPANISH_MONTHS.lookup (deaccent mon) = none →
      parse_spanish_date_str s = .ok none) :=
  ⟨by decide, by decide, by decide, by decide, by decide, by decide, by decide,
   by decide, parse_none_of_no_match, parse_none_of_unknown_month⟩

/-- C5 witness: the two general `None` clauses applied at concrete
inputs. -/
theorem parse_spanish_two_shapes_witness :
    parse_spanish_date_str "sin fecha" = .ok none ∧
    parse_spanish_date_str "15 brumario" = .ok none :=
  ⟨parse_spanish_two_shapes.2.2.2.2.2.2.2.2.1 "sin fecha" (by decide) (by decide),
   parse_spanish_two_shapes.2.2.2.2.2.2.2.2.2 "15 brumario" 15 "brumario"
     (by decide) (by decide) (by decide)⟩

/-- Helper: a month never has fewer days in another year than in 1900
(1900 is not a leap year). -/
theorem daysInMonth_1900_le (y m : Int) : daysInMonth 1900 m ≤ daysInMonth y m := by
  by_cases h2 : m = 2
  · have h19 : isLeap 1900 = false := by decide
    rw [h2]
    unfold daysInMonth
    simp [h19]
    split <;> norm_num
  · unfold daysInMonth
    simp [h2]

/-- Helper: a day-month pair valid in 1900 is valid in every year in the
constructor range. -/
theorem isValidDate_any_year {m d : Int} (y : Int)
    (h : isValidDate 1900 m d = true) (h1 : 1 ≤ y) (h2 : y ≤ 9999) :
    isValidDate y m d = true := by
  have hd := daysInMonth_1900_le y m
  unfold isValidDate at h ⊢
  simp only [Bool.and_eq_true, decide_eq_true_eq] at h ⊢
  omega

/-- C6: `attach_year` assigns the reference year to a year-1900
placeholder, bumping to the next year exactly on the December-to-January
rollover, and applies no other cross-year correction. -/
theorem attach_year_spec (p today : PyDate) (hp : p.year = 1900)
    (hv : isValidDate 1900 p.month p.day = true)
    (hy1 : 1 ≤ today.year) (hy2 : today.year ≤ 9998) :
    attach_year p today =
      .ok ⟨if today.month = 12 ∧ p.month = 1 then today.year + 1 else today.year,
           p.month, p.day⟩ := by
  have hv1 : isValidDate today.year p.month p.day = true :=
    isValidDate_any_year today.year hv hy1 (by omega)
  have hv2 : isValidDate (today.year + 1) p.month p.day = true :=
    isValidDate_any_year (today.year + 1) hv (by omega) (by omega)
  have hmk1 : mkDate today.year p.month p.day = .ok ⟨today.year, p.month, p.day⟩ := by
    unfold mkDate; rw [if_pos hv1]
  have hmk2 : mkDate (today.year + 1) p.month p.day =
      .ok ⟨today.year + 1, p.month, p.day⟩ := by
    unfold mkDate; rw [if_pos hv2]
  unfold attach_year
  rw [if_neg (by simp [hp])]
  simp only [hmk1]
  split
  · exact hmk2
  · rfl

/-- C6 witness: the December rollover example and the already-passed
month example from the specification. -/
theorem attach_year_spec_witness :
    attach_year ⟨1900, 1, 29⟩ ⟨2025, 12, 15⟩ = .ok ⟨2026, 1, 29⟩ ∧
    attach_year ⟨1900, 6, 15⟩ ⟨2025, 3, 1⟩ = .ok ⟨2025, 6, 15⟩ := by
  constructor
  · rw [attach_year_spec ⟨1900, 1, 29⟩ ⟨2025, 12, 15⟩ rfl (by decide) (by decide)
      (by decide)]
    decide
  · rw [attach_year_spec ⟨1900, 6, 15⟩ ⟨2025, 3, 1⟩ rfl (by decide) (by decide)
      (by decide)]
    decide

/-- C3 counterexample: the reference parser is not a function of content
and source alone — the wall-clock date it reads (line 209 of `agent.py`)
changes its output on identical content and source. -/
theorem tempo_club_reads_clock_counterexample :
    parse_events_from_tempo_club ["29 enero | 21:00", "Soul Night"] []
        demoSource ⟨2025, 6, 15⟩ ≠
      parse_events_from_tempo_club ["29 enero | 21:00", "Soul Night"] []
        demoSource ⟨2025, 12, 15⟩ := by
  decide

/-- C3 amended: `parse_events_from_tempo_club` reads the current Madrid
date implicitly at parse time; its event list is a deterministic function
of content, source and that clock-read date, and genuinely varies with
it: the same listing parsed with the clock at 2025-12-15 dates the event
2026-01-29, with the clock at 2025-06-15 it dates it 2025-01-29. -/
theorem tempo_club_clock_dependence :
    parse_events_from_tempo_club ["29 enero | 21:00", "Soul Night"] []
        demoSource ⟨2025, 12, 15⟩ =
      .ok [⟨"Soul Night", "Tempo Club", ⟨2026, 1, 29⟩, some "21:00",
            "https://tempoclub.es/agenda", "https://tempoclub.es/agenda",
            "Soul Night"⟩] ∧
    parse_events_from_tempo_club ["29 enero | 21:00", "Soul Night"] []
        demoSource ⟨2025, 6, 15⟩ =
      .ok [⟨"Soul Night", "Tempo Club", ⟨2025, 1, 29⟩, some "21:00",
            "https://tempoclub.es/agenda", "https://tempoclub.es/agenda",
            "Soul Night"⟩] :=
  ⟨by decide, by decide⟩

/-- Helper: a successful `attach_year` never returns the year-1900
placeholder when the reference year is after 1900. -/
theorem attach_year_resolved {d today d' : PyDate} (hy : 1900 < today.year)
    (h : attach_year d today = .ok d') : d'.year ≠ 1900 := by
  unfold attach_year at h
  by_cases hd : d.year ≠ 1900
  · rw [if_pos hd] at h
    cases h
    exact hd
  · rw [if_neg hd] at h
    rcases hmk : mkDate today.year d.month d.day with e | cand <;>
      simp only [hmk] at h
    · exact Except.noConfusion h
    · have hcy : cand.year = today.year := by
        unfold mkDate at hmk
        by_cases hv : isValidDate today.year d.month d.day = true
        · rw [if_pos hv] at hmk; cases hmk; rfl
        · simp [hv] at hmk
      by_cases hc : today.month = 12 ∧ cand.month = 1
      · rw [if_pos hc] at h
        unfold mkDate at h
        by_cases hv2 : isValidDate (today.year + 1) d.month d.day = true
        · rw [if_pos hv2] at h; cases h; simp; omega
        · rw [if_neg hv2] at h; exact Except.noConfusion h
      · rw [if_neg hc] at h
        cases h
        omega

/-- Helper: every event a successful Tempo Club scan emits has a
non-placeholder year when the reference year is after 1900. -/
theorem tempoGo_year_resolved (today : PyDate) (src : VenueSource)
    (hy : 1900 < today.year) :
    ∀ ls links evs, tempoGo today src ls links = .ok evs →
      ∀ e ∈ evs, e.event_date.year ≠ 1900 := by
  intro ls links
  induction ls, links using tempoGo.induct today src with
  | case1 links =>
    intro evs h e he
    simp only [tempoGo] at h
    cases h
    simp at he
  | case2 head links =>
    intro evs h e he
    simp only [tempoGo] at h
    cases h
    simp at he
  | case3 ln title rest links hm ih =>
    intro evs h e he
    simp only [tempoGo, hm] at h
    exact ih evs h e he
  | case4 ln title rest links day mon hhmm hm e2 hpe =>
    intro evs h e he
    simp only [tempoGo, hm, hpe] at h
    exact Except.noConfusion h
  | case5 ln title rest links day mon hhmm hm hpe ih =>
    intro evs h e he
    simp only [tempoGo, hm, hpe] at h
    exact ih evs h e he
  | case6 ln title rest links day mon hhmm hm d0 hpe e2 hat =>
    intro evs h e he
    simp only [tempoGo, hm, hpe, hat] at h
    exact Except.noConfusion h
  | case7 ln title rest links day mon hhmm hm d0 hpe cand hat e2 hrec ih =>
    intro evs h e he
    simp only [tempoGo, hm, hpe, hat, hrec] at h
    exact Except.noConfusion h
  | case8 ln title rest links day mon hhmm hm d0 hpe cand hat evs2 hrec ih =>
    intro evs h e he
    simp only [tempoGo, hm, hpe, hat, hrec] at h
    cases h
    rcases List.mem_cons.mp he with rfl | hmem
    · exact attach_year_resolved hy hat
    · exact ih evs2 hrec e hmem

/-- C9: every event emitted by any routed parser carries a fully resolved
date, never the internal year-1900 placeholder (for any reference date
after year 1900, as every wall-clock date is), and a listing line whose
date cannot be resolved contributes no event at all. -/
theorem parser_eventDate_resolved :
    (∀ (c : Content) (src : VenueSource) (today : PyDate) (evs : List Event),
      1900 < today.year → parse_events c src today = .ok evs →
      ∀ e ∈ evs, e.event_date.year ≠ 1900) ∧
    parse_events_from_tempo_club ["29 fantasma | 21:00", "Titulo"] []
      demoSource ⟨2025, 10, 12⟩ = .ok [] := by
  constructor
  · intro c src today evs hy h e he
    unfold parse_events at h
    split_ifs at h
    · cases h; simp at he
    · unfold parse_events_from_tempo_club at h
      exact tempoGo_year_resolved today src hy _ _ evs h e he
    · cases h; simp at he
    · cases h; simp at he
    · cases h; simp at he
  · decide

/-- C9 witness: the invariant applied to the single event parsed from a
concrete Tempo Club listing. -/
theorem parser_eventDate_resolved_witness :
    ((⟨"Soul", "Tempo Club", ⟨2025, 1, 29⟩, some "21:00",
        "https://tempoclub.es/agenda", "https://tempoclub.es/agenda",
        "Soul"⟩ : Event)).event_date.year ≠ 1900 :=
  parser_eventDate_resolved.1 ⟨["29 enero | 21:00", "Soul"], []⟩ demoSource
    ⟨2025, 10, 12⟩
    [⟨"Soul", "Tempo Club", ⟨2025, 1, 29⟩, some "21:00",
      "https://tempoclub.es/agenda", "https://tempoclub.es/agenda", "Soul"⟩]
    (by decide) (by decide) _ (by simp)


/-- Helper: on safe lines the code scan is fault-free and agrees with the
claimed scan. -/
theorem tempoGo_eq_spec (today : PyDate) (src : VenueSource) :
    ∀ ls links, ls.all (headerSafe today) = true →
      tempoGo today src ls links = .ok (tempoClubSpecScan today src ls links) := by
  intro ls links
  induction ls, links using tempoGo.induct today src with
  | case1 links => intro _; rfl
  | case2 head links => intro _; rfl
  | case3 ln title rest links hm ih =>
    intro hsafe
    simp only [List.all_cons, Bool.and_eq_true] at hsafe
    simp only [tempoGo, tempoClubSpecScan, hm]
    exact ih (by simp [List.all_cons, hsafe.2.1, hsafe.2.2])
  | case4 ln title rest links day mon hhmm hm e2 hpe =>
    intro hsafe
    exfalso
    simp only [List.all_cons, Bool.and_eq_true] at hsafe
    have hln := hsafe.1
    unfold headerSafe at hln
    simp only [hm, hpe] at hln
    exact Bool.noConfusion hln
  | case5 ln title rest links day mon hhmm hm hpe ih =>
    intro hsafe
    simp only [List.all_cons, Bool.and_eq_true] at hsafe
    simp only [tempoGo, tempoClubSpecScan, hm, resolveHeaderDate, hpe]
    exact ih hsafe.2.2
  | case6 ln title rest links day mon hhmm hm d0 hpe e2 hat =>
    intro hsafe
    exfalso
    simp only [List.all_cons, Bool.and_eq_true] at hsafe
    have hln := hsafe.1
    unfold headerSafe at hln
    simp only [hm, hpe, hat] at hln
    exact Bool.noConfusion hln
  | case7 ln title rest links day mon hhmm hm d0 hpe cand hat e2 hrec ih =>
    intro hsafe
    exfalso
    simp only [List.all_cons, Bool.and_eq_true] at hsafe
    have := ih hsafe.2.2
    rw [this] at hrec
    exact Except.noConfusion hrec
  | case8 ln title rest links day mon hhmm hm d0 hpe cand hat evs2 hrec ih =>
    intro hsafe
    simp only [List.all_cons, Bool.and_eq_true] at hsafe
    have hspec := ih hsafe.2.2
    have hevs : evs2 = tempoClubSpecScan today src rest links.tail :=
      Except.ok.inj (hrec.symm.trans hspec)
    simp only [tempoGo, tempoClubSpecScan, hm, resolveHeaderDate, hpe, hat, hrec,
      hevs]

/-- C7 counterexample: on a listing whose first header resolves (it
should emit one event per the claim) but whose later matched header has a
calendar-invalid day-month pair, the parser raises the `ValueError` from
the date constructor and returns no per-line events at all, unlike the
claimed scan. -/
theorem tempo_club_abort_counterexample :
    parse_events_from_tempo_club
        ["29 enero | 21:00", "Soul Night", "31 febrero | 22:00", "Otra"] []
        demoSource ⟨2025, 10, 12⟩ = .error ⟨"ValueError"⟩ ∧
    parse_events_from_tempo_club
        ["29 enero | 21:00", "Soul Night", "31 febrero | 22:00", "Otra"] []
        demoSource ⟨2025, 10, 12⟩ ≠
      .ok (tempoClubSpecScan ⟨2025, 10, 12⟩ demoSource
        ["29 enero | 21:00", "Soul Night", "31 febrero | 22:00", "Otra"] []) :=
  ⟨by decide, by decide⟩

/-- C7 amended: provided no matched header carries a calendar-invalid
day-month pair (which raises a `ValueError` that aborts the whole
parse), the reference parser returns exactly the claimed scan: one event
per matched header line that is followed by a title line and whose date
resolves, two lines consumed per matched header and one otherwise, the
info-link cursor advancing only on emission. -/
theorem tempo_club_matches_claimed_scan (lines info_links : List String)
    (src : VenueSource) (today : PyDate)
    (hsafe : ((lines.map pyStrip).filter (fun l => l ≠ "")).all
      (headerSafe today) = true) :
    parse_events_from_tempo_club lines info_links src today =
      .ok (tempoClubSpecScan today src
        ((lines.map pyStrip).filter (fun l => l ≠ "")) info_links) :=
  tempoGo_eq_spec today src _ info_links hsafe

/-- C7 witness: the refinement applied to a concrete five-line listing
with one info link. -/
theorem tempo_club_matches_claimed_scan_witness :
    parse_events_from_tempo_club
        ["29 enero | 21:00", "Soul Night", "x", "1 mayo | 20:30", "Fiesta"]
        ["http://a"] demoSource ⟨2025, 10, 12⟩ =
      .ok (tempoClubSpecScan ⟨2025, 10, 12⟩ demoSource
        (((["29 enero | 21:00", "Soul Night", "x", "1 mayo | 20:30",
            "Fiesta"]).map pyStrip).filter (fun l => l ≠ ""))
        ["http://a"]) :=
  tempo_club_matches_claimed_scan _ _ _ _ (by decide)

/-- Helper: inserting an element with the filtered key prepends it to the
filtered list (orderedInsert walks only past strictly smaller keys). -/
theorem filter_orderedInsert_key_eq (x : Event) (k : SortKey)
    (hx : sortKey x = k) (l : List Event) :
    (List.orderedInsert seqLE x l).filter (fun e => decide (sortKey e = k)) =
      x :: l.filter (fun e => decide (sortKey e = k)) := by
  induction l with
  | nil => simp [List.orderedInsert, hx]
  | cons b l ih =>
    by_cases h : seqLE x b
    · rw [List.orderedInsert, if_pos h]
      simp [List.filter_cons, hx]
    · rw [List.orderedInsert, if_neg h]
      have hb : ¬ (sortKey b = k) := fun hbk =>
        h (le_of_eq (hx.trans hbk.symm))
      simp [List.filter_cons, hb, ih, hx]

/-- Helper: inserting an element with a different key leaves the filtered
list unchanged. -/
theorem filter_orderedInsert_key_ne (x : Event) (k : SortKey)
    (hx : ¬ sortKey x = k) (l : List Event) :
    (List.orderedInsert seqLE x l).filter (fun e => decide (sortKey e = k)) =
      l.filter (fun e => decide (sortKey e = k)) := by
  induction l with
  | nil => simp [List.orderedInsert, hx]
  | cons b l ih =>
    by_cases h : seqLE x b
    · rw [List.orderedInsert, if_pos h]
      simp [List.filter_cons, hx]
    · rw [List.orderedInsert, if_neg h]
      by_cases hb : sortKey b = k <;> simp [List.filter_cons, hb, ih]

/-- C10 counterexample: with identical date, venue and title, an event
with no time sorts BEFORE a same-day event timed "9:30" — a time the
reference parser's `[0-2]?\\d:\\d{2}` pattern admits — because the
"99:99" sentinel is lexicographically smaller than any time with a
single-digit hour (the code point of `9` is below that of `:`).  This
refutes "an event with no time is placed after all same-day events that
have a time". -/
theorem sequence_no_time_first_counterexample :
    sequence
        [⟨"Jam", "Sala", ⟨2026, 1, 30⟩, some "9:30", "u", "s", "Jam"⟩,
         ⟨"Jam", "Sala", ⟨2026, 1, 30⟩, none, "u", "s", "Jam"⟩] =
      [⟨"Jam", "Sala", ⟨2026, 1, 30⟩, none, "u", "s", "Jam"⟩,
       ⟨"Jam", "Sala", ⟨2026, 1, 30⟩, some "9:30", "u", "s", "Jam"⟩] := by
  have h930 : ¬ (("9:30" : String) < "99:99") := by
    rw [String.lt_iff_toList_lt]
    decide
  have hn : ¬ seqLE
      ⟨"Jam", "Sala", ⟨2026, 1, 30⟩, some "9:30", "u", "s", "Jam"⟩
      ⟨"Jam", "Sala", ⟨2026, 1, 30⟩, none, "u", "s", "Jam"⟩ := by
    intro hle
    have hle' : sortKey ⟨"Jam", "Sala", ⟨2026, 1, 30⟩, some "9:30", "u", "s", "Jam"⟩ ≤
        sortKey ⟨"Jam", "Sala", ⟨2026, 1, 30⟩, none, "u", "s", "Jam"⟩ := hle
    unfold sortKey at hle'
    rcases (Prod.Lex.le_iff _ _).mp hle' with hdate | ⟨-, hrest⟩
    · exact lt_irrefl _ hdate
    · have ht1 : timeKey (some "9:30") = "9:30" := rfl
      have ht2 : timeKey (none : Option String) = "99:99" := rfl
      rcases (Prod.Lex.le_iff _ _).mp hrest with htime | ⟨hteq, -⟩
      · rw [ht1, ht2] at htime
        exact h930 htime
      · rw [ht1, ht2] at hteq
        exact absurd hteq (by decide)
  unfold sequence
  simp only [List.insertionSort, List.orderedInsert]
  rw [if_neg hn]

/-- C10 amended: `sequence` sorts ascending by the lexicographic key
(date, time with `None` and the empty string replaced by "99:99", venue,
title), permutes its input (no deduplication: every duplicate survives),
and is stable (elements of equal key keep their input order); the
"99:99" sentinel sorts last within its date only against zero-padded
HH:MM times, not against a single-digit-hour time such as "9:30". -/
theorem sequence_spec (l : List Event) :
    List.Sorted seqLE (sequence l) ∧
    List.Perm (sequence l) l ∧
    (∀ k : SortKey, (sequence l).filter (fun e => decide (sortKey e = k)) =
      l.filter (fun e => decide (sortKey e = k))) := by
  refine ⟨List.sorted_insertionSort seqLE l, List.perm_insertionSort seqLE l, ?_⟩
  intro k
  unfold sequence
  induction l with
  | nil => rfl
  | cons x l ih =>
    rw [List.insertionSort]
    by_cases hx : sortKey x = k
    · rw [filter_orderedInsert_key_eq x k hx, ih]
      simp [List.filter_cons, hx]
    · rw [filter_orderedInsert_key_ne x k hx, ih]
      simp [List.filter_cons, hx]

end Agent
